import Mathlib

/-!
Verification of the record-identity and reconciliation core of the Hidropal
well-monitoring application (src/app.py), as a shallow embedding in Lean 4.

Modelling conventions:
* Python floats are embedded as exact rationals (`ℚ`); a cell that holds a
  non-numeric / NaN value (anything `float(x)` renders as or fails on) is the
  `NumCell.nan` constructor, since both render as the token "nan" in the
  fingerprint input.
* `pandas` frames are embedded as lists of typed rows; a CSV file that may be
  absent is `Option (List ...)` (`none` = file does not exist).
* Dates are embedded post-parsing: `Option Fecha` is the result of
  `ensure_datetime_es` (`none` = NaT, i.e. an unparseable date).
* Python string slicing `hexdigest()[:16]` is embedded as `List.take 16` on
  the (ASCII) character list of the hex digest.
* Streamlit handlers are embedded as pure state transformers; persistence
  calls additionally emit an effect trace (`Eff`) recording which write
  mechanism the code used (`write_csv_to_destination` vs a direct
  `DataFrame.to_csv`), and remote (GitHub) writes carry an explicit success
  flag mirroring the boolean returned by `gh_put_file`.
-/

set_option maxRecDepth 100000

/-! ### SHA-1 over byte lists (embeds `hashlib.sha1`) -/

/-- Truncation to a 32-bit word. -/
def w32 (n : Nat) : Nat := n % 4294967296

/-- 32-bit left rotation. -/
def rotl (k n : Nat) : Nat := w32 ((w32 (n <<< k)) ||| (n >>> (32 - k)))

/-- UTF-8 encoding of one code point (embeds Python `str.encode("utf-8")`,
per character). -/
def utf8Char (c : Char) : List Nat :=
  let n := c.toNat
  if n < 128 then [n]
  else if n < 2048 then [192 + n / 64, 128 + n % 64]
  else if n < 65536 then [224 + n / 4096, 128 + (n / 64) % 64, 128 + n % 64]
  else [240 + n / 262144, 128 + (n / 4096) % 64, 128 + (n / 64) % 64, 128 + n % 64]

/-- UTF-8 encoding of a string as a byte list. -/
def utf8Bytes (s : String) : List Nat :=
  s.data.foldr (fun c acc => utf8Char c ++ acc) []

/-- Big-endian 8-byte encoding of a (64-bit) natural number. -/
def be64 (n : Nat) : List Nat :=
  [(n >>> 56) % 256, (n >>> 48) % 256, (n >>> 40) % 256, (n >>> 32) % 256,
   (n >>> 24) % 256, (n >>> 16) % 256, (n >>> 8) % 256, n % 256]

/-- SHA-1 message padding: append 0x80, zero-fill to 56 mod 64, then the
bit length as 8 big-endian bytes. -/
def sha1Pad (msg : List Nat) : List Nat :=
  let len := msg.length
  let zeros := (119 - len % 64) % 64
  msg ++ [128] ++ List.replicate zeros 0 ++ be64 (8 * len)

/-- Group a 64-byte chunk into 16 big-endian 32-bit words. -/
def toWords : List Nat → List Nat
  | a :: b :: c :: d :: rest => (((a * 256 + b) * 256 + c) * 256 + d) :: toWords rest
  | _ => []

/-- Message-schedule expansion step; `acc` holds the words produced so far in
reverse order, so `acc.getD 2`, `.getD 7`, `.getD 13`, `.getD 15` are
w[i-3], w[i-8], w[i-14], w[i-16]. -/
def expandGo : Nat → List Nat → List Nat
  | 0, acc => acc.reverse
  | k + 1, acc =>
      let x := rotl 1 ((acc.getD 2 0) ^^^ (acc.getD 7 0) ^^^ (acc.getD 13 0) ^^^ (acc.getD 15 0))
      expandGo k (x :: acc)

/-- Expand 16 schedule words to 80. -/
def expandW (ws : List Nat) : List Nat := expandGo 64 ws.reverse

/-- One SHA-1 compression round (round index `i`, schedule word `wi`). -/
def sha1Step (i : Nat) (wi : Nat) (s : Nat × Nat × Nat × Nat × Nat) :
    Nat × Nat × Nat × Nat × Nat :=
  let (a, b, c, d, e) := s
  let f := if i < 20 then (b &&& c) ||| ((b ^^^ 4294967295) &&& d)
           else if i < 40 then b ^^^ c ^^^ d
           else if i < 60 then (b &&& c) ||| (b &&& d) ||| (c &&& d)
           else b ^^^ c ^^^ d
  let k := if i < 20 then 1518500249 else if i < 40 then 1859775393
           else if i < 60 then 2400959708 else 3395469782
  let temp := w32 (rotl 5 a + f + e + k + wi)
  (temp, a, rotl 30 b, c, d)

/-- Process one padded 64-byte chunk. -/
def processChunk (h : Nat × Nat × Nat × Nat × Nat) (chunk : List Nat) :
    Nat × Nat × Nat × Nat × Nat :=
  let ws := expandW (toWords chunk)
  let s := ((List.range 80).zip ws).foldl (fun s p => sha1Step p.1 p.2 s) h
  (w32 (h.1 + s.1), w32 (h.2.1 + s.2.1), w32 (h.2.2.1 + s.2.2.1),
   w32 (h.2.2.2.1 + s.2.2.2.1), w32 (h.2.2.2.2 + s.2.2.2.2))

/-- Split a padded message into 64-byte chunks (fuel = list length, so the
recursion is structural). -/
def splitChunks : Nat → List Nat → List (List Nat)
  | 0, _ => []
  | _, [] => []
  | fuel + 1, l => l.take 64 :: splitChunks fuel (l.drop 64)

/-- The five 32-bit state words of SHA-1 applied to a byte list. -/
def sha1State (msg : List Nat) : Nat × Nat × Nat × Nat × Nat :=
  let padded := sha1Pad msg
  (splitChunks padded.length padded).foldl processChunk
    (1732584193, 4023233417, 2562383102, 271733878, 3285377520)

/-- Lower-case hex digit for a nibble. -/
def hexDigit (n : Nat) : Char :=
  if n < 10 then Char.ofNat (48 + n) else Char.ofNat (87 + n)

/-- Eight-digit (32-bit) lower-case hex rendering, big-endian. -/
def toHex8 (n : Nat) : List Char :=
  (List.range 8).map (fun i => hexDigit ((n >>> (4 * (7 - i))) % 16))

/-- The 40 hex characters of `hashlib.sha1(...).hexdigest()`. -/
def sha1HexList (msg : List Nat) : List Char :=
  let h := sha1State msg
  toHex8 h.1 ++ toHex8 h.2.1 ++ toHex8 h.2.2.1 ++ toHex8 h.2.2.2.1 ++ toHex8 h.2.2.2.2

/-! ### Numeric / date rendering (embeds `norm_num`, `strftime`) -/

/-- Zero-pad a decimal rendering on the left to width `w`. -/
def padLeftZeros (w : Nat) (s : String) : String :=
  String.mk (List.replicate (w - s.length) '0') ++ s

/-- Round `q * 10^6` to an integer, ties to even — the rounding Python's
fixed-point formatting `f"{x:.6f}"` performs (exact on every value whose
decimal expansion stops within six places).  Computed directly on the
numerator and denominator: with `n = num * 10^6` and `d = den`, the floor is
`n.fdiv d` with remainder `r`, and the fractional part `r / d` is compared
with `1 / 2` via `2 * r` versus `d`. -/
def round6 (q : ℚ) : ℤ :=
  let n := q.num * 1000000
  let d : ℤ := (q.den : ℤ)
  let f := n.fdiv d
  let r := n - f * d
  if d < 2 * r then f + 1 else if 2 * r < d then f else if f % 2 = 0 then f else f + 1

/-- Exact rational subtraction computed on numerators and denominators
(definitionally reducible; `qsub_eq_sub` below shows it agrees with `Sub ℚ`).
Used to embed Python's `- 0.17` (exact on these decimal inputs). -/
def qsub (a b : ℚ) : ℚ :=
  mkRat (a.num * (b.den : ℤ) - b.num * (a.den : ℤ)) (a.den * b.den)

/-- Fixed six-decimal rendering of a non-negative rational. -/
def format6abs (q : ℚ) : String :=
  let m := (round6 q).toNat
  toString (m / 1000000) ++ "." ++ padLeftZeros 6 (toString (m % 1000000))

/-- Embeds Python `f"{x:.6f}"` on exact (rational) values. -/
def format6 (q : ℚ) : String :=
  if q < 0 then "-" ++ format6abs (-q) else format6abs q

/-- A numeric CSV cell: either an exact numeric value or a value that
`float(x)` renders as (or degrades to) NaN — e.g. a missing cell or a
non-coercible string, both of which `norm_num` in `row_fingerprint`
renders as the token "nan". -/
inductive NumCell where
  | num (q : ℚ)
  | nan
deriving DecidableEq, Repr

/-- Embeds the inner `norm_num` helper of `row_fingerprint` (app.py:202-207):
fixed six-decimal rendering, with non-coercible values degrading to "nan". -/
def normNumStr : NumCell → String
  | .num q => format6 q
  | .nan => "nan"

/-- Embeds `row_fingerprint` (app.py:197-209): join the date string and the
three six-decimal renderings with "|", SHA-1, keep the first 16 hex chars. -/
def row_fingerprint (fecha_str : String) (nivel lluvia extraccion : NumCell) : String :=
  String.mk ((sha1HexList (utf8Bytes
    (fecha_str ++ "|" ++ normNumStr nivel ++ "|" ++ normNumStr lluvia ++ "|" ++
      normNumStr extraccion))).take 16)

/-- A calendar date (year, month, day), the result of a successful
`pd.to_datetime(..., dayfirst=True)` parse. -/
structure Fecha where
  y : Nat
  m : Nat
  d : Nat
deriving DecidableEq, Repr

/-- Python `date` comparison: lexicographic on (year, month, day). -/
def fechaLt (a b : Fecha) : Prop :=
  a.y < b.y ∨ (a.y = b.y ∧ (a.m < b.m ∨ (a.m = b.m ∧ a.d < b.d)))

instance (a b : Fecha) : Decidable (fechaLt a b) := by
  unfold fechaLt; exact inferInstance

/-- Embeds `strftime("%d/%m/%Y")` on a parsed date. -/
def formatFecha (f : Fecha) : String :=
  padLeftZeros 2 (toString f.d) ++ "/" ++ padLeftZeros 2 (toString f.m) ++ "/" ++
    padLeftZeros 4 (toString f.y)

/-- The date string fed to `row_fingerprint` by `ensure_ids` / `save_data`:
a parsed date is rendered dd/mm/yyyy; NaT (unparseable) passes through
`strftime` as NaN and `str()` / f-string renders it "nan". -/
def dateCellStr : Option Fecha → String
  | some f => formatFecha f
  | none => "nan"

/-! ### Rows, id assignment and dedup (embeds `ensure_ids`) -/

/-- The four data columns of a normalized row (`normalize_columns` output):
FECHA (post-parse), NIVEL, LLUVIA, EXTRACCION. -/
structure Row where
  fecha : Option Fecha
  nivel : NumCell
  lluvia : NumCell
  extraccion : NumCell
deriving DecidableEq, Repr

/-- A row together with its ID column, as persisted in either CSV. -/
structure IdRow where
  row : Row
  id : String
deriving DecidableEq, Repr

/-- The fingerprint `ensure_ids` assigns to a row (app.py:219-220). -/
def fp (r : Row) : String :=
  row_fingerprint (dateCellStr r.fecha) r.nivel r.lluvia r.extraccion

/-- Embeds `DataFrame.drop_duplicates(subset=["ID"], keep="first")`:
keep a row iff its id was not seen earlier; `seen` accumulates ids kept so far. -/
def dedupByIdGo : List String → List IdRow → List IdRow
  | _, [] => []
  | seen, r :: rs =>
      if seen.contains r.id then dedupByIdGo seen rs
      else r :: dedupByIdGo (r.id :: seen) rs

/-- `drop_duplicates` on the ID column, first occurrence kept. -/
def drop_duplicates_by_id (l : List IdRow) : List IdRow := dedupByIdGo [] l

/-- Embeds `ensure_ids` (app.py:211-224): recompute every ID from the row's
own (formatted date, NIVEL, LLUVIA, EXTRACCION), then drop duplicate ids
keeping the first occurrence.  (The `df.empty` early return produces the
same empty result.) -/
def ensure_ids (rows : List Row) : List IdRow :=
  drop_duplicates_by_id (rows.map (fun r => ⟨r, fp r⟩))

/-! ### Dataset stores (embeds `load_data`, `save_data`, `overwrite_data`,
`load_trash`, `append_to_trash`, `remove_from_trash_by_id`) -/

/-- The persisted content of one CSV destination; `none` = file absent. -/
abbrev FileContent := Option (List IdRow)

/-- Embeds `load_data` (app.py:229-238): a missing file loads as the empty
collection; otherwise `normalize_columns` keeps only the four data columns
(dropping any stored ID) and `ensure_ids` recomputes and dedups ids. -/
def load_data (f : FileContent) : List IdRow :=
  match f with
  | none => []
  | some rows => ensure_ids (rows.map IdRow.row)

/-- Embeds `load_trash` (app.py:268-280): a missing file loads as the empty
collection; otherwise `normalize_columns` keeps only the four data columns —
it always drops any stored ID column, so the `if "ID" not in df.columns`
guard is always true and `ensure_ids` runs unconditionally: trash ids are
recomputed from each row's own content and deduplicated keep-first on every
load, exactly as in `load_data`. -/
def load_trash (f : FileContent) : List IdRow :=
  match f with
  | none => []
  | some rows => ensure_ids (rows.map IdRow.row)

/-- Embeds `save_data` (app.py:240-255): reload the primary collection,
format the new row's date, fingerprint the new row, append it, and write.
Returns the written primary content.  Note: no `ensure_ids` re-run on the
full collection. -/
def save_data (fecha : Option Fecha) (nivel lluvia extraccion : NumCell)
    (primary : FileContent) : List IdRow :=
  load_data primary ++
    [⟨⟨fecha, nivel, lluvia, extraccion⟩,
      row_fingerprint (dateCellStr fecha) nivel lluvia extraccion⟩]

/-- Embeds `overwrite_data` (app.py:257-263): format dates, re-run
`ensure_ids` on the whole frame, and write.  Returns the written primary
content. -/
def overwrite_data (rows : List IdRow) : List IdRow :=
  ensure_ids (rows.map IdRow.row)

/-- Embeds `append_to_trash` (app.py:282-291): reload trash, recompute ids
of the appended rows (`ensure_ids`), concatenate, then drop duplicate ids
keeping the first occurrence.  Returns the written trash content. -/
def append_to_trash (rows : List IdRow) (trashF : FileContent) : List IdRow :=
  drop_duplicates_by_id (load_trash trashF ++ ensure_ids (rows.map IdRow.row))

/-- Embeds `remove_from_trash_by_id` (app.py:293-296): reload trash and keep
the rows whose ID differs.  Returns the written trash content. -/
def remove_from_trash_by_id (row_id : String) (trashF : FileContent) : List IdRow :=
  (load_trash trashF).filter (fun r => r.id != row_id)

/-- The pair of persisted collections. -/
structure Files where
  primary : FileContent
  trash : FileContent
deriving DecidableEq, Repr

/-- Embeds `restore_row_by_id` (app.py:341-372).  Result: (success flag,
status message, resulting files). -/
def restore_row_by_id (row_id : String) (st : Files) : Bool × String × Files :=
  let trash := load_trash st.trash
  if trash = [] then (false, "Papelera vacía.", st)
  else
    match trash.filter (fun r => r.id == row_id) with
    | [] => (false, "No se encontró el registro en papelera.", st)
    | r :: _ =>
        let df := load_data st.primary
        if (df.filter (fun x => x.id == r.id)) ≠ [] then
          (true, "El registro ya estaba en los datos; se quitó de la papelera.",
            ⟨st.primary, some (remove_from_trash_by_id r.id st.trash)⟩)
        else
          (true, "Registro restaurado.",
            ⟨some (df ++ [r]), some (remove_from_trash_by_id r.id st.trash)⟩)

/-! ### Input validation and the insert (Cargar) handler -/

/-- The cleaned data dictionary returned by `validate_input_data`. -/
structure Cleaned where
  fecha : Fecha
  nivel : Option ℚ
  lluvia : ℚ
  extraccion : ℚ
deriving DecidableEq, Repr

/-- Embeds `validate_input_data` (app.py:301-339).  `none` inputs are the
Python `None`s coming from empty widgets; `today` stands for `date.today()`. -/
def validate_input_data (fecha : Option Fecha) (nivel lluvia extraccion : Option ℚ)
    (today : Fecha) : Cleaned × List String :=
  let fechaV := fecha.getD today
  let e1 := if fechaLt today fechaV then ["📅 La fecha no puede ser futura"] else []
  let e2 := match nivel with
            | none => ["💧 El nivel no puede ser vacío"]
            | some v => if v ≤ 0 then ["💧 El nivel debe ser mayor a 0"] else []
  let lluviaV := lluvia.getD 0
  let e3 := match lluvia with
            | none => []
            | some v => if v < 0 then ["🌧️ Lluvia no puede ser negativa"] else []
  let extraccionV := extraccion.getD 0
  let e4 := match extraccion with
            | none => []
            | some v => if v < 0 then ["🚰 Extracción no puede ser negativa"] else []
  let nivelClean := match nivel with
                    | some v => if 0 < v then some v else none
                    | none => none
  (⟨fechaV, nivelClean, lluviaV, extraccionV⟩, e1 ++ e2 ++ e3 ++ e4)

/-- Embeds the Cargar submit handler (app.py:567-587): validate; on any
error show the messages and persist nothing; otherwise `save_data` the
cleaned values with the instrument offset 0.17 subtracted from the level.
(The `none` level branch is unreachable when validation reported no error.)
Returns the resulting files and the error list. -/
def submit_handler (fecha : Option Fecha) (nivel lluvia extraccion : Option ℚ)
    (today : Fecha) (files : Files) : Files × List String :=
  let v := validate_input_data fecha nivel lluvia extraccion today
  if v.2 ≠ [] then (files, v.2)
  else
    ({ files with primary := some (save_data (some v.1.fecha)
        (NumCell.num (qsub (v.1.nivel.getD 0) (mkRat 17 100)))
        (NumCell.num v.1.lluvia) (NumCell.num v.1.extraccion) files.primary) }, [])

/-! ### Effect traces and the Eliminar / Deshacer / Vaciar handlers -/

/-- The two CSV destinations. -/
inductive FileId where
  | primaryFile
  | trashFile
deriving DecidableEq, Repr

/-- One persistence-related step of a handler, tagged with the mechanism the
code used: `backendWrite` = a `write_csv_to_destination` call (its `ok` flag
is the boolean the backend returned, always `true` in local mode);
`directLocalWrite` = a bare `DataFrame.to_csv` call that bypasses the
backend; `bufferSet` = an update of the session Last-Deleted Buffer. -/
inductive Eff where
  | backendWrite (file : FileId) (rows : List IdRow) (ok : Bool)
  | directLocalWrite (file : FileId) (rows : List IdRow)
  | bufferSet (rows : Option (List IdRow))
deriving DecidableEq, Repr

/-- True for the effects that persist a collection (buffer updates are
session state, not persistence). -/
def isPersistEff : Eff → Bool
  | .backendWrite _ _ _ => true
  | .directLocalWrite _ _ => true
  | .bufferSet _ => false

/-- True iff the effect goes through the `write_csv_to_destination` backend. -/
def isBackendEff : Eff → Bool
  | .backendWrite _ _ _ => true
  | _ => false

/-- Full application state: the two files plus the session-scoped
Last-Deleted Buffer (`st.session_state["last_deleted_rows"]`). -/
structure AppState where
  files : Files
  buffer : Option (List IdRow)
deriving DecidableEq, Repr

/-- Outcome of one `write_csv_to_destination` call: the new content when the
backend reported success, the old content otherwise (a failed remote `PUT`
leaves the destination unchanged; in local mode `ok` is always `true`). -/
def applyWrite (f : FileContent) (new : List IdRow) (ok : Bool) : FileContent :=
  if ok then some new else f

/-- Stable ascending insertion by FECHA (NaT last), used to embed
`sort_values("FECHA")`. -/
def fechaLeB (a b : Option Fecha) : Bool :=
  match a, b with
  | none, _ => false
  | some _, none => true
  | some x, some y => decide (fechaLt x y) || decide (x = y)

def insertByFecha (r : IdRow) : List IdRow → List IdRow
  | [] => [r]
  | x :: xs =>
      if fechaLeB x.row.fecha r.row.fecha then x :: insertByFecha r xs
      else r :: x :: xs

/-- Embeds `DataFrame.sort_values("FECHA")` (ascending, NaT last). -/
def sort_values_fecha (l : List IdRow) : List IdRow :=
  l.foldl (fun acc r => insertByFecha r acc) []

/-- Embeds the Eliminar click handler (app.py:731-750), parametrised by the
success flags the two `write_csv_to_destination` calls return (`okTrash`
for the `append_to_trash` write, `okPrimary` for the `overwrite_data`
write); the code ignores both flags.  Result: (state, effect trace,
reported-success flag). -/
def eliminar_handler (sel_id : String) (st : AppState) (okTrash okPrimary : Bool) :
    AppState × List Eff × Bool :=
  let df_current := sort_values_fecha (load_data st.files.primary)
  let rows_to_delete := df_current.filter (fun r => r.id == sel_id)
  if rows_to_delete = [] then (st, [], false)
  else
    let newTrash := append_to_trash rows_to_delete st.files.trash
    let df_new := df_current.filter (fun r => r.id != sel_id)
    let newPrimary := overwrite_data df_new
    (⟨⟨applyWrite st.files.primary newPrimary okPrimary,
        applyWrite st.files.trash newTrash okTrash⟩, some rows_to_delete⟩,
     [Eff.bufferSet (some rows_to_delete),
      Eff.backendWrite FileId.trashFile newTrash okTrash,
      Eff.backendWrite FileId.primaryFile newPrimary okPrimary],
     true)

/-- The loop `for rid in rows_add["ID"]: remove_from_trash_by_id(rid)`
(app.py:772-773): each call reloads the trash, filters one id out and
writes back through the backend. -/
def remove_trash_loop : List String → FileContent → FileContent × List Eff
  | [], t => (t, [])
  | i :: ids, t =>
      let t1 := remove_from_trash_by_id i t
      let rest := remove_trash_loop ids (some t1)
      (rest.1, Eff.backendWrite FileId.trashFile t1 true :: rest.2)

/-- Embeds the Deshacer (undo last delete) click handler (app.py:752-779).
Only the session buffer decides what to restore; ids already present in the
primary are filtered out; the new primary is written with a direct
`to_csv`; the restored ids are then removed from the trash; the buffer is
cleared whenever it was non-empty.  Result: (state, effect trace, status
message). -/
def deshacer_handler (st : AppState) : AppState × List Eff × String :=
  match st.buffer with
  | none => (st, [], "No hay un borrado reciente para deshacer.")
  | some last =>
      if last = [] then (st, [], "No hay un borrado reciente para deshacer.")
      else
        let df_now := load_data st.files.primary
        let ids_now := df_now.map IdRow.id
        let rows_add := last.filter (fun r => !(ids_now.contains r.id))
        if rows_add ≠ [] then
          let rows_add2 := ensure_ids (rows_add.map IdRow.row)
          let df_new := df_now ++ rows_add2
          let removed := remove_trash_loop (rows_add2.map IdRow.id) st.files.trash
          (⟨⟨some df_new, removed.1⟩, none⟩,
           Eff.directLocalWrite FileId.primaryFile df_new ::
             removed.2 ++ [Eff.bufferSet none],
           "Se deshizo el último borrado")
        else
          (⟨st.files, none⟩, [Eff.bufferSet none],
           "Ese registro ya está presente; no se realizó ninguna acción.")

/-- Embeds the Vaciar Papelera (purge) click handler (app.py:810-814): one
direct `to_csv` replacing the trash with the empty collection. -/
def purge_handler (st : AppState) : AppState × List Eff :=
  (⟨⟨st.files.primary, some []⟩, st.buffer⟩,
   [Eff.directLocalWrite FileId.trashFile []])

/-! ### Remote (GitHub) storage backend (embeds `gh_get_file` / `gh_put_file`
/ `write_csv_to_destination` in the `gh_enabled` branch) -/

/-- A remote destination: its content plus its version token (sha). -/
structure RemoteFile where
  content : List IdRow
  sha : Nat
deriving DecidableEq, Repr

/-- The version token `gh_get_file` returns (none when the file is absent). -/
def gh_file_sha : Option RemoteFile → Option Nat :=
  fun f => f.map RemoteFile.sha

/-- Embeds the GitHub Contents API `PUT` as called by `gh_put_file`
(app.py:88-105): create succeeds only without a sha on an absent file;
update succeeds only with the current sha; any mismatch returns `False`
(the code comment: on sha conflict return False so the caller may retry)
and leaves the destination unchanged. -/
def gh_put_file (atPut : Option RemoteFile) (newContent : List IdRow)
    (sha : Option Nat) : Option RemoteFile × Bool :=
  match atPut, sha with
  | none, none => (some ⟨newContent, 0⟩, true)
  | none, some _ => (none, false)
  | some rf, some s =>
      if s = rf.sha then (some ⟨newContent, rf.sha + 1⟩, true) else (some rf, false)
  | some rf, none => (some rf, false)

/-- Embeds `write_csv_to_destination` (app.py:121-131) with the remote
backend enabled: read the current sha (from the destination as it is at
read time, `atRead`), then `PUT` with that sha against the destination as
it is at put time (`atPut` — different from `atRead` only if a concurrent
writer intervened).  Returns (resulting destination, success flag). -/
def write_csv_to_destination_gh (df : List IdRow) (atRead atPut : Option RemoteFile) :
    Option RemoteFile × Bool :=
  let sha := gh_file_sha atRead
  gh_put_file atPut df sha

/-! ### Concrete instances and derived predicates used in the theorems -/

/-- Lower-case hexadecimal characters. -/
def isHexDigitChar (c : Char) : Bool := "0123456789abcdef".data.contains c

/-- A concrete measurement row (01/01/2024, level 1, rain 0, extraction 0). -/
def rowA : Row := ⟨some ⟨2024, 1, 1⟩, NumCell.num 1, NumCell.num 0, NumCell.num 0⟩

/-- `rowA` with its own fingerprint, as `ensure_ids` stores it. -/
def idrowA : IdRow := ⟨rowA, fp rowA⟩

/-- A state whose primary collection holds exactly `rowA` and whose trash is
an (existing) empty file. -/
def stDel : AppState := ⟨⟨some [idrowA], some []⟩, none⟩

/-- A state with an empty primary, an empty trash and `rowA` sitting in the
Last-Deleted Buffer. -/
def stUndo : AppState := ⟨⟨some [], some []⟩, some [idrowA]⟩

/-- What the Eliminar handler does when the selected id is present: the
buffer, trash and primary steps happen in this order, and the two write
results are applied to the two destinations independently — the handler
never inspects either `ok` flag and reports success unconditionally. -/
def eliminarResult (sel_id : String) (st : AppState) (okTrash okPrimary : Bool) : Prop :=
  let df_current := sort_values_fecha (load_data st.files.primary)
  let rows := df_current.filter (fun r => r.id == sel_id)
  eliminar_handler sel_id st okTrash okPrimary =
    (⟨⟨applyWrite st.files.primary
          (overwrite_data (df_current.filter (fun r => r.id != sel_id))) okPrimary,
       applyWrite st.files.trash (append_to_trash rows st.files.trash) okTrash⟩,
      some rows⟩,
     [Eff.bufferSet (some rows),
      Eff.backendWrite FileId.trashFile (append_to_trash rows st.files.trash) okTrash,
      Eff.backendWrite FileId.primaryFile
        (overwrite_data (df_current.filter (fun r => r.id != sel_id))) okPrimary],
     true)

/-! ### Helper lemmas -/

/-- Sanity check of the SHA-1 embedding against a digest computed by
`hashlib.sha1` on the same input. -/
theorem sha1_concrete_digest_check :
    String.mk ((sha1HexList (utf8Bytes "03/04/2024|5.030000|12.000000|300.000000")).take 16)
      = "5fee6c2346a79467" := by decide

theorem toHex8_length (n : Nat) : (toHex8 n).length = 8 := by
  simp [toHex8]

theorem sha1HexList_length (msg : List Nat) : (sha1HexList msg).length = 40 := by
  simp [sha1HexList, toHex8]

theorem toHex8_hex (n : Nat) : (toHex8 n).all isHexDigitChar = true := by
  have h : ∀ m, m < 16 → isHexDigitChar (hexDigit m) = true := by decide
  rw [List.all_eq_true]
  intro c hc
  rw [toHex8, List.mem_map] at hc
  obtain ⟨i, _, rfl⟩ := hc
  exact h _ (Nat.mod_lt _ (by norm_num))

theorem sha1HexList_hex (msg : List Nat) : (sha1HexList msg).all isHexDigitChar = true := by
  rw [sha1HexList]
  simp only [List.all_append, Bool.and_eq_true]
  exact ⟨⟨⟨⟨toHex8_hex _, toHex8_hex _⟩, toHex8_hex _⟩, toHex8_hex _⟩, toHex8_hex _⟩

theorem contains_cons (a x : String) (l : List String) :
    (a :: l).contains x = ((x == a) || l.contains x) := by
  cases h : x == a <;> simp [List.contains, List.elem, h]

theorem dedupByIdGo_sublist (seen : List String) (l : List IdRow) :
    List.Sublist (dedupByIdGo seen l) l := by
  induction l generalizing seen with
  | nil => simp [dedupByIdGo]
  | cons r rs ih =>
      cases hc : seen.contains r.id with
      | true =>
          rw [dedupByIdGo, hc]
          simp only [if_true]
          exact (ih seen).cons r
      | false =>
          rw [dedupByIdGo, hc]
          simp only [Bool.false_eq_true, if_false]
          exact (ih (r.id :: seen)).cons₂ r

theorem dedupByIdGo_find? (seen : List String) (l : List IdRow) (s : String)
    (h : seen.contains s = false) :
    (dedupByIdGo seen l).find? (fun r => r.id == s)
      = l.find? (fun r => r.id == s) := by
  induction l generalizing seen with
  | nil => rfl
  | cons r rs ih =>
      cases hc : seen.contains r.id with
      | true =>
          have hne : (r.id == s) = false := by
            cases heq : r.id == s with
            | true =>
                rw [beq_iff_eq] at heq
                rw [heq] at hc
                rw [hc] at h
                exact absurd h (by simp)
            | false => rfl
          rw [dedupByIdGo, hc]
          simp only [if_true]
          rw [ih seen h, List.find?_cons, hne]
      | false =>
          rw [dedupByIdGo, hc]
          simp only [Bool.false_eq_true, if_false]
          cases heq : r.id == s with
          | true => rw [List.find?_cons, List.find?_cons, heq]
          | false =>
              have h' : (r.id :: seen).contains s = false := by
                rw [contains_cons, h]
                cases hsr : s == r.id with
                | true =>
                    rw [beq_iff_eq] at hsr
                    rw [hsr] at heq
                    simp at heq
                | false => rfl
              rw [List.find?_cons, List.find?_cons, heq, ih _ h']

theorem dedupByIdGo_nodup (seen : List String) (l : List IdRow) :
    ((dedupByIdGo seen l).map IdRow.id).Nodup ∧
      ∀ s ∈ (dedupByIdGo seen l).map IdRow.id, seen.contains s = false := by
  induction l generalizing seen with
  | nil => simp [dedupByIdGo]
  | cons r rs ih =>
      cases hc : seen.contains r.id with
      | true =>
          rw [dedupByIdGo, hc]
          simp only [if_true]
          exact ih seen
      | false =>
          obtain ⟨hnd, hdis⟩ := ih (r.id :: seen)
          rw [dedupByIdGo, hc]
          simp only [Bool.false_eq_true, if_false, List.map_cons, List.nodup_cons]
          refine ⟨⟨fun hmem => ?_, hnd⟩, ?_⟩
          · have := hdis r.id hmem
            rw [contains_cons] at this
            simp at this
          · intro s hs
            rcases List.mem_cons.mp hs with rfl | hs'
            · exact hc
            · have := hdis s hs'
              rw [contains_cons] at this
              exact (Bool.or_eq_false_iff.mp this).2

theorem dedupByIdGo_eq_self (seen : List String) (l : List IdRow)
    (hnd : (l.map IdRow.id).Nodup)
    (hdis : ∀ r ∈ l, seen.contains r.id = false) :
    dedupByIdGo seen l = l := by
  induction l generalizing seen with
  | nil => rfl
  | cons r rs ih =>
      rw [List.map_cons, List.nodup_cons] at hnd
      rw [dedupByIdGo, hdis r (List.mem_cons_self r rs)]
      simp only [Bool.false_eq_true, if_false]
      rw [ih (r.id :: seen) hnd.2]
      intro x hx
      rw [contains_cons, hdis x (List.mem_cons_of_mem r hx)]
      cases hxe : x.id == r.id with
      | true =>
          rw [beq_iff_eq] at hxe
          exact absurd (hxe ▸ List.mem_map_of_mem IdRow.id hx) hnd.1
      | false => rfl

theorem ensure_ids_sublist (rows : List Row) :
    List.Sublist (ensure_ids rows) (rows.map (fun r => ⟨r, fp r⟩)) :=
  dedupByIdGo_sublist [] _

theorem ensure_ids_id_eq (rows : List Row) :
    ∀ r ∈ ensure_ids rows, r.id = fp r.row := by
  intro r hr
  have hm : r ∈ rows.map (fun r => (⟨r, fp r⟩ : IdRow)) :=
    (ensure_ids_sublist rows).subset hr
  obtain ⟨x, _, rfl⟩ := List.mem_map.mp hm
  rfl

theorem ensure_ids_nodup (rows : List Row) :
    ((ensure_ids rows).map IdRow.id).Nodup :=
  (dedupByIdGo_nodup [] _).1

theorem ensure_ids_of_wf (l : List IdRow)
    (hwf : ∀ r ∈ l, r.id = fp r.row)
    (hnd : (l.map IdRow.id).Nodup) :
    ensure_ids (l.map IdRow.row) = l := by
  have hmap : (l.map IdRow.row).map (fun r => (⟨r, fp r⟩ : IdRow)) = l := by
    rw [List.map_map]
    conv_rhs => rw [← List.map_id l]
    refine List.map_congr_left fun r hr => ?_
    have := hwf r hr
    cases r
    simp only [Function.comp_apply, id_eq]
    simp_all
  rw [ensure_ids, drop_duplicates_by_id, hmap]
  exact dedupByIdGo_eq_self [] l hnd (fun r _ => rfl)

/-! ### Claim theorems -/

/-- C1: `row_fingerprint` is a pure total function (a Lean `def`, hence
deterministic: equal inputs give the identical id).  Each numeric field is
rendered at fixed six-decimal precision, a non-coercible value rendering as
the literal token "nan" instead of raising; the four rendered fields are
joined with "|", SHA-1 hashed, and the id is the first 16 (lower-case hex)
characters of the digest. -/
theorem C1_row_fingerprint_pure_sha1_16hex :
    ∀ (d : String) (n l e : NumCell),
      row_fingerprint d n l e =
        String.mk ((sha1HexList (utf8Bytes
          (d ++ "|" ++ normNumStr n ++ "|" ++ normNumStr l ++ "|" ++
            normNumStr e))).take 16)
      ∧ (row_fingerprint d n l e).length = 16
      ∧ (row_fingerprint d n l e).data.all isHexDigitChar = true
      ∧ normNumStr NumCell.nan = "nan"
      ∧ (∀ q : ℚ, normNumStr (NumCell.num q) = format6 q) := by
  intro d n l e
  refine ⟨rfl, ?_, ?_, rfl, fun q => rfl⟩
  · show (List.take 16 _).length = 16
    rw [List.length_take, sha1HexList_length]
    decide
  · show (List.take 16 _).all _ = true
    rw [List.all_eq_true]
    intro c hc
    exact List.all_eq_true.mp (sha1HexList_hex _) c (List.mem_of_mem_take hc)

/-- C7: `ensure_ids` output has pairwise-distinct ids; it is a sublist of the
input rows (each carrying its own fingerprint), so later duplicates are
dropped and nothing is added or reordered; and for every id the retained
row is the first-encountered row of the input carrying that id, regardless
of the duplicate rows' contents. -/
theorem C7_ensure_ids_unique_keep_first :
    ∀ rows : List Row,
      ((ensure_ids rows).map IdRow.id).Nodup
      ∧ List.Sublist (ensure_ids rows) (rows.map (fun r => ⟨r, fp r⟩))
      ∧ ∀ s : String,
          (ensure_ids rows).find? (fun r => r.id == s)
            = (rows.map (fun r => (⟨r, fp r⟩ : IdRow))).find? (fun r => r.id == s) := by
  intro rows
  exact ⟨ensure_ids_nodup rows, ensure_ids_sublist rows,
    fun s => dedupByIdGo_find? [] _ s rfl⟩

/-- C3 counterexample: on the insert path, saving a row whose fields equal an
already-persisted row writes a primary dataset with a duplicated id —
`save_data` does not re-run id dedup on the full collection before writing. -/
theorem C3_counterexample_save_data_duplicate_id :
    ¬ (((save_data (some ⟨2024, 1, 1⟩) (NumCell.num 1) (NumCell.num 0) (NumCell.num 0)
          (some [idrowA])).map IdRow.id).Nodup) := by decide

/-- C3 amended: the full-overwrite path (`overwrite_data`) does re-run
`ensure_ids`, so its persisted rows have deduplicated ids each equal to the
fingerprint of the row's own fields.  The insert path (`save_data`) also
persists only rows whose id equals their own fingerprint (loaded rows are
re-fingerprinted by `load_data`, and the appended row's id is computed
fresh), but it does not dedup the full collection, so appending a row
identical to a persisted one duplicates its id. -/
theorem C3_amended_saves_fingerprint_ids :
    (∀ rows : List IdRow,
        ((overwrite_data rows).map IdRow.id).Nodup
        ∧ ∀ r ∈ overwrite_data rows, r.id = fp r.row)
    ∧ (∀ (fecha : Option Fecha) (nivel lluvia extraccion : NumCell) (f : FileContent),
        ∀ r ∈ save_data fecha nivel lluvia extraccion f, r.id = fp r.row) := by
  constructor
  · intro rows
    exact ⟨ensure_ids_nodup _, ensure_ids_id_eq _⟩
  · intro fecha nivel lluvia extraccion f r hr
    rw [save_data] at hr
    rcases List.mem_append.mp hr with h | h
    · cases f with
      | none => simp [load_data] at h
      | some rows => exact ensure_ids_id_eq _ r h
    · rw [List.mem_singleton] at h
      subst h
      rfl

/-- Witness for C3's amended statement at concrete inputs: the overwrite of
a stale-id row dedups, and the row `save_data` appends to an absent file
carries its own fingerprint as id. -/
theorem C3_amended_witness :
    ((overwrite_data [⟨rowA, "stale"⟩]).map IdRow.id).Nodup
    ∧ (⟨rowA, fp rowA⟩ : IdRow).id = fp ((⟨rowA, fp rowA⟩ : IdRow).row) := by
  refine ⟨(C3_amended_saves_fingerprint_ids.1 [⟨rowA, "stale"⟩]).1, ?_⟩
  exact C3_amended_saves_fingerprint_ids.2 (some ⟨2024, 1, 1⟩) (NumCell.num 1)
    (NumCell.num 0) (NumCell.num 0) none ⟨rowA, fp rowA⟩
    (List.mem_append_right _ (List.mem_singleton.mpr rfl))

/-- C4: `restore_row_by_id` on any state: an empty trash or an id absent
from the trash is a reported failure with no state change; an id present in
trash and already present in primary is removed from trash and reported as
success with an informational message, with the primary file untouched (no
duplicate); otherwise the row is appended to primary (which is saved) and
then removed from trash. -/
theorem C4_restore_row_by_id_cases :
    ∀ (row_id : String) (st : Files),
      (load_trash st.trash = [] →
        restore_row_by_id row_id st = (false, "Papelera vacía.", st))
      ∧ (load_trash st.trash ≠ [] →
          (load_trash st.trash).filter (fun r => r.id == row_id) = [] →
          restore_row_by_id row_id st =
            (false, "No se encontró el registro en papelera.", st))
      ∧ (∀ (r : IdRow) (rest : List IdRow),
          (load_trash st.trash).filter (fun r => r.id == row_id) = r :: rest →
          ((load_data st.primary).filter (fun x => x.id == r.id) ≠ [] →
            restore_row_by_id row_id st =
              (true, "El registro ya estaba en los datos; se quitó de la papelera.",
               ⟨st.primary,
                some ((load_trash st.trash).filter (fun x => x.id != r.id))⟩))
          ∧ ((load_data st.primary).filter (fun x => x.id == r.id) = [] →
            restore_row_by_id row_id st =
              (true, "Registro restaurado.",
               ⟨some (load_data st.primary ++ [r]),
                some ((load_trash st.trash).filter (fun x => x.id != r.id))⟩))) := by
  intro row_id st
  refine ⟨?_, ?_, ?_⟩
  · intro h
    simp [restore_row_by_id, h]
  · intro h1 h2
    simp [restore_row_by_id, h1, h2]
  · intro r rest hf
    have hne : load_trash st.trash ≠ [] := by
      intro h0
      rw [h0] at hf
      simp at hf
    constructor
    · intro hp
      simp [restore_row_by_id, hne, hf, hp, remove_from_trash_by_id]
    · intro hp
      simp [restore_row_by_id, hne, hf, hp, remove_from_trash_by_id]

/-- Witness for C4 at concrete states: the empty-trash case, the id-not-in-
trash case and the plain restore case.  (Trash ids are recomputed on load,
so the row in trash is addressed by the fingerprint of its content.) -/
theorem C4_restore_witness :
    restore_row_by_id "x" ⟨none, some []⟩ = (false, "Papelera vacía.", ⟨none, some []⟩)
    ∧ restore_row_by_id "x" ⟨none, some [idrowA]⟩
        = (false, "No se encontró el registro en papelera.", ⟨none, some [idrowA]⟩)
    ∧ restore_row_by_id (fp rowA) ⟨none, some [idrowA]⟩
        = (true, "Registro restaurado.", ⟨some [idrowA], some []⟩) := by
  refine ⟨(C4_restore_row_by_id_cases "x" _).1 rfl,
    (C4_restore_row_by_id_cases "x" _).2.1 (by decide) (by decide), ?_⟩
  have h := ((C4_restore_row_by_id_cases (fp rowA) ⟨none, some [idrowA]⟩).2.2
    idrowA [] (by decide)).2 (by decide)
  rw [h]
  decide

/-- The reducible subtraction used in the embedding agrees with `Sub ℚ`. -/
theorem qsub_eq_sub (a b : ℚ) : qsub a b = a - b := by
  have ha : (a.den : ℚ) ≠ 0 := by positivity
  have hb : (b.den : ℚ) ≠ 0 := by positivity
  rw [qsub, Rat.mkRat_eq_div]
  push_cast
  conv_rhs => rw [← Rat.num_div_den a, ← Rat.num_div_den b]
  rw [div_sub_div _ _ ha hb]
  ring_nf

/-- C2 counterexample: deleting the one row of `stDel` while the trash-append
write fails (`okTrash = false`) and the primary write succeeds leaves the
trash unchanged, yet the primary removal IS persisted and the handler still
reports success — so the claimed "primary stays unchanged on trash-append
failure" is false of the code. -/
theorem C2_counterexample_trash_fail_primary_persisted :
    ¬ ((eliminar_handler (fp rowA) stDel false true).1.files.primary
        = stDel.files.primary)
    ∧ (eliminar_handler (fp rowA) stDel false true).1.files.trash
        = stDel.files.trash
    ∧ (eliminar_handler (fp rowA) stDel false true).2.2 = true := by
  refine ⟨by decide, by decide, by decide⟩

/-- C2 amended: when the selected id is present the handler performs, in
order, the buffer update, the trash-append backend write and the primary
overwrite backend write; but it ignores both write results: each
destination changes iff its own write succeeded (independently of the
other), and the handler reports success unconditionally. -/
theorem C2_amended_delete_ignores_write_results :
    ∀ (sel_id : String) (st : AppState) (okTrash okPrimary : Bool),
      (sort_values_fecha (load_data st.files.primary)).filter
          (fun r => r.id == sel_id) ≠ [] →
      eliminarResult sel_id st okTrash okPrimary := by
  intro sel_id st okTrash okPrimary h
  rw [eliminarResult, eliminar_handler]
  simp only [if_neg h]

/-- Witness for C2's amended statement: the concrete delete on `stDel` with
both writes succeeding. -/
theorem C2_amended_witness :
    (sort_values_fecha (load_data stDel.files.primary)).filter
        (fun r => r.id == fp rowA) ≠ []
    ∧ eliminarResult (fp rowA) stDel true true :=
  ⟨by decide, C2_amended_delete_ignores_write_results (fp rowA) stDel true true (by decide)⟩

/-- Every row a trash load produces carries its own fingerprint as id
(`ensure_ids` recomputes it on every load). -/
theorem load_trash_id_eq (t : FileContent) : ∀ r ∈ load_trash t, r.id = fp r.row := by
  cases t with
  | none => intro r hr; simp [load_trash] at hr
  | some rows => exact ensure_ids_id_eq _

/-- Trash loads are deduplicated by id. -/
theorem load_trash_nodup (t : FileContent) : ((load_trash t).map IdRow.id).Nodup := by
  cases t with
  | none => simp [load_trash]
  | some rows => exact ensure_ids_nodup _

theorem remove_trash_loop_some (ids : List String) (l : List IdRow)
    (hwf : ∀ r ∈ l, r.id = fp r.row) (hnd : (l.map IdRow.id).Nodup) :
    (remove_trash_loop ids (some l)).1
      = some (l.filter (fun r => !(ids.contains r.id))) := by
  induction ids generalizing l with
  | nil => simp [remove_trash_loop, List.filter_true]
  | cons i ids ih =>
      rw [remove_trash_loop]
      simp only []
      have h1 : remove_from_trash_by_id i (some l) = l.filter (fun r => r.id != i) := by
        rw [remove_from_trash_by_id]
        show (ensure_ids (l.map IdRow.row)).filter (fun r => r.id != i)
          = l.filter (fun r => r.id != i)
        rw [ensure_ids_of_wf l hwf hnd]
      rw [h1]
      rw [ih (l.filter (fun r => r.id != i))
        (fun r hr => hwf r (List.mem_of_mem_filter hr))
        (List.Nodup.sublist ((List.filter_sublist _).map _) hnd)]
      rw [List.filter_filter]
      congr 1
      apply List.filter_congr
      intro x _
      rw [contains_cons]
      cases hxi : x.id == i <;> cases hc : ids.contains x.id <;>
        simp [bne, hxi, hc]

theorem remove_trash_loop_fst (ids : List String) (t : FileContent) (h : ids ≠ []) :
    (remove_trash_loop ids t).1
      = some ((load_trash t).filter (fun r => !(ids.contains r.id))) := by
  cases ids with
  | nil => exact absurd rfl h
  | cons i ids =>
      rw [remove_trash_loop]
      simp only []
      rw [show remove_from_trash_by_id i t
            = (load_trash t).filter (fun r => r.id != i) from rfl]
      rw [remove_trash_loop_some ids ((load_trash t).filter (fun r => r.id != i))
        (fun r hr => load_trash_id_eq t r (List.mem_of_mem_filter hr))
        (List.Nodup.sublist ((List.filter_sublist _).map _) (load_trash_nodup t))]
      rw [List.filter_filter]
      congr 1
      apply List.filter_congr
      intro x _
      rw [contains_cons]
      cases hxi : x.id == i <;> cases hc : ids.contains x.id <;>
        simp [bne, hxi, hc]

/-- C5: the Deshacer (undo last delete) handler restores only from the
Last-Deleted Buffer (the trash is consulted only to remove the restored
ids): with an empty or cleared buffer it is a no-op reporting that there is
nothing to undo; otherwise it appends to the primary exactly the buffered
rows whose ids are not already present, saves, removes those same ids from
the trash, and clears the buffer unconditionally — also when nothing needed
to be added.  The well-formedness hypotheses (each buffered row carries its
own fingerprint id, ids pairwise distinct) hold of every buffer the
application creates, since the buffer is always a sublist of `load_data`
output. -/
theorem C5_deshacer_undo_from_buffer :
    ∀ st : AppState,
      ((st.buffer = none ∨ st.buffer = some []) →
        deshacer_handler st = (st, [], "No hay un borrado reciente para deshacer."))
      ∧ (∀ last : List IdRow, st.buffer = some last → last ≠ [] →
          (∀ r ∈ last, r.id = fp r.row) → (last.map IdRow.id).Nodup →
          ((last.filter (fun r =>
              !(((load_data st.files.primary).map IdRow.id).contains r.id)) ≠ []) →
            (deshacer_handler st).1 =
              ⟨⟨some (load_data st.files.primary ++
                  last.filter (fun r =>
                    !(((load_data st.files.primary).map IdRow.id).contains r.id))),
                some ((load_trash st.files.trash).filter (fun t =>
                  !(((last.filter (fun r =>
                      !(((load_data st.files.primary).map IdRow.id).contains r.id))).map
                        IdRow.id).contains t.id)))⟩, none⟩
            ∧ (deshacer_handler st).2.2 = "Se deshizo el último borrado")
          ∧ ((last.filter (fun r =>
              !(((load_data st.files.primary).map IdRow.id).contains r.id)) = []) →
            (deshacer_handler st).1 = ⟨st.files, none⟩
            ∧ (deshacer_handler st).2.2 =
                "Ese registro ya está presente; no se realizó ninguna acción.")) := by
  intro st
  constructor
  · intro h
    rcases h with h | h <;> simp [deshacer_handler, h]
  · intro last hb hne hwf hnd
    have hsubl : ∀ r ∈ last.filter (fun r =>
        !(((load_data st.files.primary).map IdRow.id).contains r.id)), r.id = fp r.row :=
      fun r hr => hwf r (List.mem_of_mem_filter hr)
    have hnd2 : ((last.filter (fun r =>
        !(((load_data st.files.primary).map IdRow.id).contains r.id))).map IdRow.id).Nodup :=
      List.Nodup.sublist ((List.filter_sublist _).map _) hnd
    have hadd2 : ensure_ids ((last.filter (fun r =>
        !(((load_data st.files.primary).map IdRow.id).contains r.id))).map IdRow.row)
        = last.filter (fun r =>
            !(((load_data st.files.primary).map IdRow.id).contains r.id)) :=
      ensure_ids_of_wf _ hsubl hnd2
    constructor
    · intro hradd
      have hid : ((last.filter (fun r =>
          !(((load_data st.files.primary).map IdRow.id).contains r.id))).map IdRow.id) ≠ [] := by
        cases hrw : last.filter (fun r =>
            !(((load_data st.files.primary).map IdRow.id).contains r.id)) with
        | nil => exact absurd hrw hradd
        | cons a as => simp
      constructor
      · simp only [deshacer_handler, hb]
        rw [if_neg hne, if_pos hradd, hadd2, remove_trash_loop_fst _ _ hid]
      · simp only [deshacer_handler, hb]
        rw [if_neg hne, if_pos hradd]
    · intro hzero
      constructor
      · simp only [deshacer_handler, hb]
        rw [if_neg hne, if_neg (not_not_intro hzero)]
      · simp only [deshacer_handler, hb]
        rw [if_neg hne, if_neg (not_not_intro hzero)]

/-- Witness for C5: the cleared-buffer no-op and a concrete undo on
`stUndo`. -/
theorem C5_deshacer_witness :
    deshacer_handler ⟨⟨none, none⟩, none⟩
      = (⟨⟨none, none⟩, none⟩, [], "No hay un borrado reciente para deshacer.")
    ∧ (deshacer_handler stUndo).1 = ⟨⟨some [idrowA], some []⟩, none⟩
    ∧ (deshacer_handler stUndo).2.2 = "Se deshizo el último borrado" := by
  refine ⟨(C5_deshacer_undo_from_buffer ⟨⟨none, none⟩, none⟩).1 (Or.inl rfl), ?_, ?_⟩ <;>
    have h := ((C5_deshacer_undo_from_buffer stUndo).2 [idrowA] rfl (by simp)
      (by intro r hr; rw [List.mem_singleton] at hr; subst hr; rfl) (by simp)).1
      (by decide)
  · rw [h.1]
    decide
  · exact h.2

/-- C6 counterexample: not every persisting step goes through
`write_csv_to_destination` — the purge handler's only persistence effect and
the undo handler's primary persistence effect are direct local `to_csv`
writes that bypass the backend. -/
theorem C6_counterexample_direct_local_writes :
    ¬ ((((purge_handler stDel).2).filter isPersistEff).all isBackendEff = true)
    ∧ ¬ ((((deshacer_handler stUndo).2.1).filter isPersistEff).all isBackendEff = true) := by
  refine ⟨by decide, by decide⟩

/-- C6 amended: `write_csv_to_destination` with the remote backend enabled
reads the current version token immediately before writing and returns a
boolean failure (leaving the destination unchanged) instead of raising when
the token no longer matches at put time; with no interference between its
read and its put the write succeeds.  However the undo-last-delete primary
save and the purge-trash write do NOT go through this backend: both are
direct local `to_csv` calls. -/
theorem C6_amended_backend_semantics_and_bypasses :
    (∀ (df : List IdRow) (atRead atPut : Option RemoteFile),
        gh_file_sha atRead ≠ gh_file_sha atPut →
        write_csv_to_destination_gh df atRead atPut = (atPut, false))
    ∧ (∀ (df : List IdRow) (f : Option RemoteFile),
        (write_csv_to_destination_gh df f f).2 = true
        ∧ (write_csv_to_destination_gh df f f).1.map RemoteFile.content = some df)
    ∧ (∀ st : AppState,
        (purge_handler st).2 = [Eff.directLocalWrite FileId.trashFile []])
    ∧ (∀ (st : AppState) (last : List IdRow), st.buffer = some last →
        (last.filter (fun r =>
            !(((load_data st.files.primary).map IdRow.id).contains r.id)) ≠ []) →
        ((deshacer_handler st).2.1).head? =
          some (Eff.directLocalWrite FileId.primaryFile
            (load_data st.files.primary ++
              ensure_ids ((last.filter (fun r =>
                !(((load_data st.files.primary).map IdRow.id).contains r.id))).map
                  IdRow.row)))) := by
  refine ⟨?_, ?_, fun st => rfl, ?_⟩
  · intro df atRead atPut hne
    cases atRead with
    | none =>
        cases atPut with
        | none => exact absurd rfl hne
        | some rf => rfl
    | some ra =>
        cases atPut with
        | none => rfl
        | some rb =>
            have hs : ra.sha ≠ rb.sha := by
              intro h0
              exact hne (by simp [gh_file_sha, h0])
            simp [write_csv_to_destination_gh, gh_put_file, gh_file_sha, hs]
  · intro df f
    cases f with
    | none => exact ⟨rfl, rfl⟩
    | some rf =>
        constructor <;> simp [write_csv_to_destination_gh, gh_put_file, gh_file_sha]
  · intro st last hb hradd
    have hlne : last ≠ [] := by
      intro h0
      rw [h0] at hradd
      simp at hradd
    simp only [deshacer_handler, hb]
    rw [if_neg hlne, if_pos hradd]
    rfl

/-- Witness for C6's amended statement: a token mismatch fails and changes
nothing, a quiet write succeeds, and the concrete undo trace on `stUndo`
starts with the direct local primary write. -/
theorem C6_amended_witness :
    gh_file_sha (some ⟨[], 0⟩) ≠ gh_file_sha (some ⟨[], 1⟩)
    ∧ write_csv_to_destination_gh [] (some ⟨[], 0⟩) (some ⟨[], 1⟩) = (some ⟨[], 1⟩, false)
    ∧ (write_csv_to_destination_gh [idrowA] none none).2 = true
    ∧ ((deshacer_handler stUndo).2.1).head? =
        some (Eff.directLocalWrite FileId.primaryFile
          (load_data stUndo.files.primary ++
            ensure_ids (([idrowA].filter (fun r =>
              !(((load_data stUndo.files.primary).map IdRow.id).contains r.id))).map
                IdRow.row))) := by
  refine ⟨by decide, ?_, ?_, ?_⟩
  · exact C6_amended_backend_semantics_and_bypasses.1 [] (some ⟨[], 0⟩) (some ⟨[], 1⟩)
      (by decide)
  · exact (C6_amended_backend_semantics_and_bypasses.2.1 [idrowA] none).1
  · exact C6_amended_backend_semantics_and_bypasses.2.2.2 stUndo [idrowA] rfl (by decide)

/-- C8: `validate_input_data` returns a non-empty error list exactly when the
date is in the future, the level is missing or not greater than 0, the
rainfall is negative, or the extraction is negative; the messages are
pairwise distinct; a missing rainfall or extraction is defaulted to 0
without contributing an error; and a non-empty error list makes the submit
handler abort with no persistence side effect on either collection. -/
theorem C8_validation_exactly_and_aborts :
    ∀ (fecha : Option Fecha) (nivel lluvia extraccion : Option ℚ) (today : Fecha)
      (files : Files),
      ((validate_input_data fecha nivel lluvia extraccion today).2 ≠ [] ↔
        (fechaLt today (fecha.getD today) ∨ nivel = none ∨
          (∃ v, nivel = some v ∧ v ≤ 0) ∨ (∃ v, lluvia = some v ∧ v < 0) ∨
          (∃ v, extraccion = some v ∧ v < 0)))
      ∧ (validate_input_data fecha nivel lluvia extraccion today).2.Nodup
      ∧ (lluvia = none →
          (validate_input_data fecha nivel lluvia extraccion today).1.lluvia = 0)
      ∧ (extraccion = none →
          (validate_input_data fecha nivel lluvia extraccion today).1.extraccion = 0)
      ∧ ((validate_input_data fecha nivel lluvia extraccion today).2 ≠ [] →
          submit_handler fecha nivel lluvia extraccion today files =
            (files, (validate_input_data fecha nivel lluvia extraccion today).2)) := by
  intro fecha nivel lluvia extraccion today files
  refine ⟨?_, ?_, ?_, ?_, ?_⟩
  · rcases nivel with _ | n <;> rcases lluvia with _ | l <;> rcases extraccion with _ | e <;>
      simp [validate_input_data] <;> (try simp only [← not_lt]) <;> tauto
  · rcases nivel with _ | n <;> rcases lluvia with _ | l <;> rcases extraccion with _ | e <;>
      simp [validate_input_data] <;> (try split_ifs) <;> decide
  · intro h
    subst h
    rfl
  · intro h
    subst h
    rfl
  · intro h
    simp only [submit_handler]
    rw [if_pos h]

/-- Witness for C8 at concrete inputs: a missing level yields the (single,
distinct) level error, a missing rainfall is defaulted to 0, and the submit
aborts returning the unchanged files with that error list. -/
theorem C8_validation_witness :
    (validate_input_data none none none none ⟨2024, 1, 1⟩).2 ≠ []
    ∧ (validate_input_data none none none none ⟨2024, 1, 1⟩).1.lluvia = 0
    ∧ submit_handler none none none none ⟨2024, 1, 1⟩ ⟨none, none⟩ =
        (⟨none, none⟩, (validate_input_data none none none none ⟨2024, 1, 1⟩).2) := by
  refine ⟨by decide, ?_, ?_⟩
  · exact (C8_validation_exactly_and_aborts none none none none ⟨2024, 1, 1⟩
      ⟨none, none⟩).2.2.1 rfl
  · exact (C8_validation_exactly_and_aborts none none none none ⟨2024, 1, 1⟩
      ⟨none, none⟩).2.2.2.2 (by decide)

/-- C9: when validation passes, the inserted row stores level
`entered − 0.17` (`qsub v (17/100)`, exact); and the concrete scenario:
inserting date 03/04/2024, level 5.20, rainfall 12.0, extraction 300.0 into
an empty primary persists one row with level 5.03 whose id is the first 16
hex characters of the SHA-1 of "03/04/2024|5.030000|12.000000|300.000000". -/
theorem C9_insert_level_offset_and_scenario :
    (∀ (fecha : Option Fecha) (nivel lluvia extraccion : Option ℚ) (today : Fecha)
       (files : Files) (v : ℚ),
       (validate_input_data fecha nivel lluvia extraccion today).2 = [] →
       (validate_input_data fecha nivel lluvia extraccion today).1.nivel = some v →
       (submit_handler fecha nivel lluvia extraccion today files).1.primary =
         some (save_data
           (some (validate_input_data fecha nivel lluvia extraccion today).1.fecha)
           (NumCell.num (qsub v (mkRat 17 100)))
           (NumCell.num (validate_input_data fecha nivel lluvia extraccion today).1.lluvia)
           (NumCell.num (validate_input_data fecha nivel lluvia extraccion today).1.extraccion)
           files.primary))
    ∧ submit_handler (some ⟨2024, 4, 3⟩) (some (mkRat 26 5)) (some 12) (some 300)
        ⟨2024, 4, 3⟩ ⟨some [], some []⟩ =
      (⟨some [⟨⟨some ⟨2024, 4, 3⟩, NumCell.num (mkRat 503 100), NumCell.num 12,
          NumCell.num 300⟩,
        String.mk ((sha1HexList (utf8Bytes
          "03/04/2024|5.030000|12.000000|300.000000")).take 16)⟩], some []⟩, []) := by
  constructor
  · intro fecha nivel lluvia extraccion today files v herr hniv
    simp only [submit_handler, if_neg (not_not_intro herr), hniv, Option.getD_some]
  · decide

/-- Witness for C9's general part at the concrete scenario inputs. -/
theorem C9_insert_witness :
    (validate_input_data (some ⟨2024, 4, 3⟩) (some (mkRat 26 5)) (some 12) (some 300)
        ⟨2024, 4, 3⟩).2 = []
    ∧ (validate_input_data (some ⟨2024, 4, 3⟩) (some (mkRat 26 5)) (some 12) (some 300)
        ⟨2024, 4, 3⟩).1.nivel = some (mkRat 26 5)
    ∧ (submit_handler (some ⟨2024, 4, 3⟩) (some (mkRat 26 5)) (some 12) (some 300)
        ⟨2024, 4, 3⟩ ⟨some [], some []⟩).1.primary =
      some (save_data
        (some (validate_input_data (some ⟨2024, 4, 3⟩) (some (mkRat 26 5)) (some 12)
          (some 300) ⟨2024, 4, 3⟩).1.fecha)
        (NumCell.num (qsub (mkRat 26 5) (mkRat 17 100)))
        (NumCell.num (validate_input_data (some ⟨2024, 4, 3⟩) (some (mkRat 26 5))
          (some 12) (some 300) ⟨2024, 4, 3⟩).1.lluvia)
        (NumCell.num (validate_input_data (some ⟨2024, 4, 3⟩) (some (mkRat 26 5))
          (some 12) (some 300) ⟨2024, 4, 3⟩).1.extraccion)
        (some [])) :=
  ⟨by decide, by decide,
    C9_insert_level_offset_and_scenario.1 (some ⟨2024, 4, 3⟩) (some (mkRat 26 5))
      (some 12) (some 300) ⟨2024, 4, 3⟩ ⟨some [], some []⟩ (mkRat 26 5)
      (by decide) (by decide)⟩

/-- C10: a `None` date is silently replaced by today's date: the validator
behaves exactly as if today's date had been entered, the cleaned record
carries today's date, and no missing-date (future-date) error message is
ever produced for it. -/
theorem C10_missing_date_defaults_to_today :
    ∀ (nivel lluvia extraccion : Option ℚ) (today : Fecha),
      validate_input_data none nivel lluvia extraccion today
        = validate_input_data (some today) nivel lluvia extraccion today
      ∧ (validate_input_data none nivel lluvia extraccion today).1.fecha = today
      ∧ "📅 La fecha no puede ser futura" ∉
          (validate_input_data none nivel lluvia extraccion today).2 := by
  intro nivel lluvia extraccion today
  have hirr : ¬ fechaLt today today := by simp [fechaLt]
  refine ⟨rfl, rfl, ?_⟩
  rcases nivel with _ | n <;> rcases lluvia with _ | l <;> rcases extraccion with _ | e <;>
    simp [validate_input_data, hirr]

/-- Witness for C10 at concrete inputs. -/
theorem C10_missing_date_witness :
    "📅 La fecha no puede ser futura" ∉
      (validate_input_data none none none none ⟨2024, 1, 1⟩).2 :=
  (C10_missing_date_defaults_to_today none none none ⟨2024, 1, 1⟩).2.2
